import Mathlib

/-!
Shallow embedding of `kythe/cxx/indexer/cxx/KytheGraphObserver.cc` (the
graph-observer core of the Kythe C++ indexer) and proofs about it.

The compiler-side collaborators (clang `SourceManager`, the VFS, the claim
client, the metadata parser) are modelled as an immutable environment of
oracles (`Env`); the observer's own mutable members become an explicit
`ObserverState` threaded through the operations; calls into the recorder
sink and writes to the diagnostic stream become an explicit list of
`Output` values returned by each operation.  `CHECK`/`LOG(FATAL)` aborts
are modelled by returning `none`.
-/

/-- A Kythe VName (corpus/root/path/signature/language), as in
`kythe.proto.VName`.  `VNameRef` and the proto message are collapsed into
one structure since the distinction is only about ownership. -/
structure VName where
  corpus : String := ""
  root : String := ""
  path : String := ""
  signature : String := ""
  language : String := ""
deriving DecidableEq, Repr

/-- A claim token (`KytheClaimToken`): carries the file VName under which
claims were checked, the cached claim boolean, and the language-independent
flag.  `tokenId` models C++ object identity (NodeIds hold token pointers;
distinct token objects with equal fields are distinct tokens). -/
structure KytheClaimToken where
  tokenId : Nat := 0
  vname : VName := {}
  rough_claimed : Bool := true
  language_independent : Bool := false
deriving DecidableEq, Repr

/-- Modelled from the spec: a claimed string is the content signature
stamped with the token's own identity (`NodeId::ToClaimedString` /
`KytheClaimToken::StampIdentity` live in headers that are not under
`src/`).  The stamp of the default-constructed tokens used for types and
builtins is empty. -/
def KytheClaimToken.StampIdentity (t : KytheClaimToken) (identity : String) : String :=
  identity ++ (if t.vname.corpus = "" then "" else "#" ++ t.vname.corpus)

/-- A `GraphObserver::NodeId`: a claim token plus a content signature
string.  Two NodeIds are equal iff both components are. -/
structure NodeId where
  token : KytheClaimToken
  identity : String
deriving DecidableEq, Repr

/-- `NodeId::ToClaimedString()`. -/
def NodeId.ToClaimedString (n : NodeId) : String :=
  n.token.StampIdentity n.identity

/-- `kythe::supported_language::kIndexerLang`. -/
def kIndexerLang : String := "c++"

/-- A deterministic stand-in digest for `llvm::hash_value`/SHA-based
compression (the hash implementations are external to the repository). -/
def strHash (s : String) : Nat :=
  s.foldl (fun h c => (h * 31 + c.toNat) % 1000000007) 7

/-- Modelled from the spec (§4.1; `CompressString` lives in
`kythe/cxx/common`, not under `src/`): identity on short strings unless
hashing is forced, a deterministic digest otherwise. -/
def CompressString (s : String) (force : Bool) : String :=
  if !force && s.length ≤ 64 then s else "hash(" ++ toString (strHash s) ++ ")"

/-- `KytheGraphObserver::VNameRefFromNodeId`: language from the indexer
(cleared for language-independent tokens), corpus/root/path decorated from
the token's VName, signature from the NodeId's identity. -/
def VNameRefFromNodeId (n : NodeId) : VName :=
  { corpus := n.token.vname.corpus
    root := n.token.vname.root
    path := n.token.vname.path
    signature := n.identity
    language := if n.token.language_independent then "" else kIndexerLang }

/-- The observer's `type_token_` member (used for all type NodeIds). -/
def typeToken : KytheClaimToken := { tokenId := 1 }

/-- The observer's `default_token_` member (`getDefaultClaimToken()`). -/
def defaultToken : KytheClaimToken := { tokenId := 0 }

/-- A clang `SourceLocation`, carrying what the `SourceManager` would
answer about it: invalid, a file location (with its `FileID`, `none` when
the FileID is invalid, and byte offset), or a macro-expansion location
with its expansion and spelling locations. -/
inductive SrcLoc where
  | invalid : SrcLoc
  | fileLoc (fid : Option Nat) (offset : Nat) : SrcLoc
  | macroLoc (expansion spelling : SrcLoc) : SrcLoc
deriving DecidableEq, Repr

/-- `SourceLocation::isValid()`. -/
def SrcLoc.isValid : SrcLoc → Bool
  | .invalid => false
  | _ => true

/-- `SourceLocation::isFileID()`. -/
def SrcLoc.isFileID : SrcLoc → Bool
  | .fileLoc _ _ => true
  | _ => false

/-- `SourceLocation::isMacroID()`. -/
def SrcLoc.isMacroID : SrcLoc → Bool
  | .macroLoc _ _ => true
  | _ => false

/-- `SourceManager::getExpansionLoc`.  A `macroLoc` stores the expansion
location the `SourceManager` would resolve it to (clang resolves through
the whole expansion chain, so the stored location is normally a file
location). -/
def SrcLoc.getExpansionLoc : SrcLoc → SrcLoc
  | .macroLoc e _ => e
  | l => l

/-- `SourceManager::getSpellingLoc`. -/
def SrcLoc.getSpellingLoc : SrcLoc → SrcLoc
  | .macroLoc _ sp => sp
  | l => l

/-- `SourceManager::getFileOffset` (only ever consulted on file
locations; other cases are unreachable in the embedded code paths). -/
def SrcLoc.getFileOffset : SrcLoc → Nat
  | .fileLoc _ o => o
  | _ => 0

/-- `SourceManager::getFileID`, for file locations.  Macro-expansion
buffer FileIDs are modelled as absent (`none`); the observer only keys
real files by FileID. -/
def SrcLoc.getFileIDOpt : SrcLoc → Option Nat
  | .fileLoc fid _ => fid
  | _ => none

/-- A clang `SourceRange`. -/
structure SourceRange where
  getBegin : SrcLoc
  getEnd : SrcLoc
deriving DecidableEq, Repr

/-- `GraphObserver::Range::RangeKind`. -/
inductive RangeKind where
  | Physical
  | Wraith
  | Implicit
deriving DecidableEq, Repr

/-- A `GraphObserver::Range`: kind, physical bounds, and the context
NodeId (meaningful for `Wraith` and `Implicit` ranges). -/
structure Range where
  Kind : RangeKind
  PhysicalRange : SourceRange
  Context : NodeId
deriving DecidableEq, Repr

/-- A clang `FileEntry`: the stable unique id and the file name. -/
structure FileEntry where
  uid : Nat
  name : String
deriving DecidableEq, Repr

/-- Fact/property identifiers used by the embedded operations
(`NodeKindID` in `KytheGraphRecorder.h`). -/
inductive NodeKindID where
  | kAnchor
  | kPackage
  | kDoc
  | kTNominal
  | kTApp
  | kBuiltin
  | kMacro
deriving DecidableEq, Repr

/-- `PropertyID` values used by the embedded operations. -/
inductive PropertyID where
  | kSubkind
  | kText
  | kComplete
  | kLocationStartOffset
  | kLocationEndOffset
  | kParamDefault
deriving DecidableEq, Repr

/-- `EdgeKindID` values used by the embedded operations. -/
inductive EdgeKindID where
  | kChildOf
  | kChildOfContext
  | kRef
  | kRefCall
  | kDefinesBinding
  | kDefinesFull
  | kDocuments
  | kParam
  | kCompletes
  | kUniquelyCompletes
  | kHasType
deriving DecidableEq, Repr

/-- `GraphObserver::Claimability`. -/
inductive Claimability where
  | Claimable
  | Unclaimable
deriving DecidableEq, Repr

/-- The marked-source signature tree node kinds used here. -/
inductive MSKind where
  | BOX
  | IDENTIFIER
  | CONTEXT
  | LOOKUP_BY_PARAM
  | PARAMETER_LOOKUP_BY_PARAM
  | PARAMETER_LOOKUP_BY_PARAM_WITH_DEFAULTS
deriving DecidableEq, Repr

/-- A `MarkedSource` signature tree. -/
inductive MarkedSource where
  | node (kind : MSKind) (pre_text post_child_text post_text : String)
      (lookup_index : Nat) (children : List MarkedSource)

/-- One observable effect of an operation: a recorder-sink fact
(`KytheGraphRecorder::AddProperty`/`AddEdge`/`AddFileContent`/
`AddMarkedSource`) or a diagnostic written to the error stream
(`fprintf(stderr, ...)` / `LOG(ERROR)`), which is not part of the sink. -/
inductive Output where
  | nodeKind (v : VName) (k : NodeKindID)
  | prop (v : VName) (p : PropertyID) (value : String)
  | propNat (v : VName) (p : PropertyID) (value : Nat)
  | edge (source : VName) (k : EdgeKindID) (target : VName)
  | edgeOrd (source : VName) (k : EdgeKindID) (target : VName) (ordinal : Nat)
  | fileContent (v : VName) (content : String)
  | marked (v : VName) (m : MarkedSource)
  | diag (msg : String)

/-- Whether an output is a recorder-sink fact (as opposed to a
diagnostic). -/
def Output.isSink : Output → Bool
  | .diag _ => false
  | _ => true

/-- Count the node-kind facts of kind `k` in an output list. -/
def nodeKindCount (outs : List Output) (k : NodeKindID) : Nat :=
  outs.countP fun o => match o with
    | .nodeKind _ k' => decide (k' = k)
    | _ => false

/-- Count the (unordinaled) edge facts of kind `k` in an output list. -/
def edgeKindCount (outs : List Output) (k : EdgeKindID) : Nat :=
  outs.countP fun o => match o with
    | .edge _ k' _ => decide (k' = k)
    | _ => false

/-- Whether an output list contains an edge of kind `k` whose target is
the VName of node `t`. -/
def containsEdgeTo (outs : List Output) (k : EdgeKindID) (t : NodeId) : Bool :=
  outs.any fun o => match o with
    | .edge _ k' tgt => decide (k' = k) && decide (tgt = VNameRefFromNodeId t)
    | _ => false

/-- Whether an output list contains a diagnostic. -/
def hasDiag (outs : List Output) : Bool :=
  outs.any fun o => match o with
    | .diag _ => true
    | _ => false

/-- A metadata overlay rule (`MetadataFile::Rule`). -/
structure Rule where
  rbegin : Nat
  rend : Nat
  edge_in : String
  edge_out : String
  vname : VName
  reverse_edge : Bool

/-- A parsed metadata overlay file. -/
structure MetadataFile where
  rules : List Rule

/-- A builtin registry entry (`KytheGraphObserver::Builtin`). -/
structure Builtin where
  node_id : NodeId
  marked_source : MarkedSource
  emitted : Bool

/-- A deduplication key for anchor edges (`KytheGraphObserver::RangeEdge`;
the cached hash field is derived data and omitted). -/
structure RangeEdge where
  PhysicalRange : SourceRange
  EdgeKind : EdgeKindID
  EdgeTarget : NodeId
deriving DecidableEq, Repr

/-- A `KytheGraphObserver::FileState`: one entry of the inclusion stack.
Value-initialized (`FileState{}`) fields default to the empty context,
empty VNames, uid 0 and `claimed = false` per C++ value initialization
(the struct itself is declared in `KytheGraphObserver.h`, not under
`src/`; its fields are those the spec names: context, vname, base vname,
unique id, claimed flag). -/
structure FileState where
  context : String := ""
  vname : VName := {}
  base_vname : VName := {}
  uid : Nat := 0
  claimed : Bool := false
deriving DecidableEq, Repr

/-- Association-list lookup (stand-in for the C++ hash maps). -/
def lookupA {α : Type} (l : List (Nat × α)) (k : Nat) : Option α :=
  match l.find? (fun p => p.1 = k) with
  | some p => some p.2
  | none => none

/-- Association-list lookup with string keys. -/
def lookupS {α : Type} (l : List (String × α)) (k : String) : Option α :=
  match l.find? (fun p => p.1 = k) with
  | some p => some p.2
  | none => none

/-- `emplace` on a map: inserts only if the key is absent. -/
def emplaceA {α : Type} (l : List (Nat × α)) (k : Nat) (v : α) : List (Nat × α) :=
  match lookupA l k with
  | some _ => l
  | none => (k, v) :: l

/-- The observer's mutable members. -/
structure ObserverState where
  file_stack : List FileState := []
  deferred_anchors : List Range := []
  range_edges : List RangeEdge := []
  written_namespaces : List String := []
  written_types : List String := []
  written_docs : List String := []
  recorded_files : List Nat := []
  claim_checked_files : List (Nat × KytheClaimToken) := []
  claimed_file_specific_tokens : List (Nat × KytheClaimToken) := []
  transitively_reached_through_header : List Nat := []
  path_to_context_data : List (Nat × List (String × List (Nat × String))) := []
  builtins : List (String × Builtin) := []
  meta : List (Nat × MetadataFile) := []
  main_source_file_loc : SrcLoc := .invalid
  main_source_file_token : Option KytheClaimToken := none
  deferring_nodes : Bool := true
  drop_redundant_wraiths : Bool := false
  starting_context : String := ""

/-- The immutable collaborators: the `SourceManager`'s file table, the
VFS, the claim client, buffers and the metadata edge-kind resolver. -/
structure Env where
  fileEntryFor : Nat → Option FileEntry := fun _ => none
  sliceHash : SrcLoc → Option String := fun _ => none
  vfsGetVName : FileEntry → Option VName := fun _ => none
  relativizePath : String → String → String := fun p _ => p
  workingDirectory : String := ""
  claimantCorpus : String := ""
  claim : VName → Bool := fun _ => true
  fileBuffer : FileEntry → Option String := fun _ => none
  ofSpelling : String → Option EdgeKindID := fun _ => none
  debugUidString : Nat → String := fun n => toString n
  fail_on_unimplemented_builtin : Bool := false

/-- `KytheGraphObserver::VNameFromFileEntry`: the VFS's answer when it has
one, otherwise a VName built from the (relativized) file name and the
claimant's corpus. -/
def VNameFromFileEntry (env : Env) (file_entry : FileEntry) : VName :=
  match env.vfsGetVName file_entry with
  | some v => v
  | none =>
      { path := if file_entry.name.startsWith env.workingDirectory then
                  env.relativizePath file_entry.name env.workingDirectory
                else file_entry.name
        corpus := env.claimantCorpus }

/-- `SearchForFileEntry`: associate a location with a `FileEntry` by
searching the macro expansion history (expansion first, then spelling;
`getExpansionLoc`/`getSpellingLoc` of a macro location are its stored
components, so the recursion is written on those components). -/
def SearchForFileEntry (env : Env) : SrcLoc → Option FileEntry
  | .invalid => none
  | .fileLoc fid _ => fid.bind env.fileEntryFor
  | .macroLoc e sp =>
      match SearchForFileEntry env e with
      | some out => some out
      | none => SearchForFileEntry env sp

/-- `AppendFileBufferSliceHashToStream`: the hash of the buffer slice
under the location (an oracle: buffer and `llvm::hash_value` are external),
or an `!invalid[offset]` marker when the character data is unavailable. -/
def AppendFileBufferSliceHashToStream (env : Env) (loc : SrcLoc) : String :=
  match env.sliceHash loc with
  | none => "!invalid[" ++ toString loc.getFileOffset ++ "]"
  | some h => h

/-- `AppendFullLocationToStream`: encode a location as a string, threading
the list of already-posted FileIDs (re-occurrences are encoded as `@.N`
back-references); macro locations recurse as
`expansion-loc "@" spelling-loc` (again written on the stored
components, which is what the two getters return). -/
def AppendFullLocationToStream (env : Env) (posted : List (Option Nat)) (loc : SrcLoc) :
    List (Option Nat) × String :=
  match loc with
  | .invalid => (posted, "invalid")
  | .fileLoc fid offset =>
      let file_entry := fid.bind env.fileEntryFor
      let ofs := match file_entry with
        | some _ => toString offset
        | none => AppendFileBufferSliceHashToStream env (.fileLoc fid offset)
      match posted.findIdx? (fun old => old = fid) with
      | some old_id => (posted, ofs ++ "@." ++ toString old_id)
      | none =>
          let posted1 := posted ++ [fid]
          match file_entry with
          | some entry =>
              let v := VNameFromFileEntry env entry
              (posted1, ofs ++ (if v.corpus ≠ "" then v.corpus ++ "/" else "")
                ++ (if v.root ≠ "" then v.root ++ "/" else "") ++ v.path)
          | none => (posted1, ofs)
  | .macroLoc e sp =>
      let r1 := AppendFullLocationToStream env posted e
      let r2 := AppendFullLocationToStream env r1.1 sp
      (r2.1, r1.2 ++ "@" ++ r2.2)

/-- `KytheGraphObserver::AppendRangeToStream`: begin location, end
location when distinct, and the context's claimed string for Wraith
ranges; the posted-FileID list starts fresh for every range. -/
def AppendRangeToStream (env : Env) (range : Range) : String :=
  let r1 := AppendFullLocationToStream env [] range.PhysicalRange.getBegin
  let r2 := if range.PhysicalRange.getEnd ≠ range.PhysicalRange.getBegin then
      (AppendFullLocationToStream env r1.1 range.PhysicalRange.getEnd).2
    else ""
  (r1.2 ++ r2) ++ (if range.Kind = RangeKind.Wraith then range.Context.ToClaimedString else "")

/-- `KytheGraphObserver::VNameFromRange`: Implicit ranges get the context
node's VName with an `@syntactic` suffix; otherwise the begin location
must be valid (`CHECK`, modelled as `none` on failure), macro bounds are
expansion-resolved, the base VName comes from the resolved file entry (or
from the context node for a Wraith range without one), and the signature
appends `@begin:end` plus the context's claimed string for Wraith
ranges. -/
def VNameFromRange (env : Env) (range : Range) : Option VName :=
  if range.Kind = RangeKind.Implicit then
    let base := VNameRefFromNodeId range.Context
    some { base with signature := CompressString (base.signature ++ "@syntactic") false
                     language := kIndexerLang }
  else
    let b0 := range.PhysicalRange.getBegin
    if !b0.isValid then none
    else
      let e0 := if !range.PhysicalRange.getEnd.isValid then b0 else range.PhysicalRange.getEnd
      let b := if b0.isMacroID then b0.getExpansionLoc else b0
      let e := if e0.isMacroID then e0.getExpansionLoc else e0
      let base : VName :=
        match SearchForFileEntry env b with
        | some file_entry => VNameFromFileEntry env file_entry
        | none => if range.Kind = RangeKind.Wraith then VNameRefFromNodeId range.Context else {}
      let sig := base.signature ++ "@" ++ toString b.getFileOffset ++ ":"
        ++ toString e.getFileOffset
        ++ (if range.Kind = RangeKind.Wraith then "@" ++ range.Context.ToClaimedString else "")
      some { base with signature := CompressString sig false, language := kIndexerLang }

/-- Modelled from the spec (§4.3; `claimNode` is declared in
`KytheGraphObserver.h`, not under `src/`): a node's claim is the cached
rough-claimed boolean of its claim token. -/
def claimNode (node_id : NodeId) : Bool :=
  node_id.token.rough_claimed

/-- `KytheGraphObserver::claimLocation`: invalid locations and locations
in invalid FileIDs are always claimed; otherwise the cached claim boolean
of the claim-checked file, or `false` for a file never pushed.  The
`CHECK(source_location.isFileID())` after expansion resolution is
modelled as `none`. -/
def claimLocation (s : ObserverState) (source_location : SrcLoc) : Option Bool :=
  match source_location with
  | .invalid => some true
  | .fileLoc none _ => some true
  | .fileLoc (some fid) _ =>
      some (match lookupA s.claim_checked_files fid with
            | some token => token.rough_claimed
            | none => false)
  | .macroLoc e sp =>
      match SrcLoc.getExpansionLoc (.macroLoc e sp) with
      | .fileLoc none _ => some true
      | .fileLoc (some fid) _ =>
          some (match lookupA s.claim_checked_files fid with
                | some token => token.rough_claimed
                | none => false)
      | _ => none

/-- `KytheGraphObserver::claimRange`: a Wraith range is claimed when its
context node is (short-circuiting, as in the source); otherwise the claim
of the begin location's file. -/
def claimRange (s : ObserverState) (range : Range) : Option Bool :=
  if range.Kind = RangeKind.Wraith && claimNode range.Context then some true
  else claimLocation s range.PhysicalRange.getBegin

/-- `KytheGraphObserver::RecordSourceLocation`: a byte-offset property,
after resolving macro locations to their expansion location. -/
def RecordSourceLocation (vname : VName) (source_location : SrcLoc)
    (offset_id : PropertyID) : Output :=
  let l := if source_location.isMacroID then source_location.getExpansionLoc
           else source_location
  .propNat vname offset_id l.getFileOffset

/-- `KytheGraphObserver::RecordRange`: emits the anchor node's facts
unless deferred-node mode already saw this range (in which case nothing is
emitted); Implicit anchors get a subkind instead of offsets, Wraith
anchors an extra childof-context edge. -/
def RecordRange (s : ObserverState) (anchor_name : VName) (range : Range) :
    ObserverState × List Output :=
  if !s.deferring_nodes || !(decide (range ∈ s.deferred_anchors)) then
    let s' := if s.deferring_nodes then
        { s with deferred_anchors := range :: s.deferred_anchors }
      else s
    let locFacts :=
      if range.Kind = RangeKind.Implicit then
        [Output.prop anchor_name PropertyID.kSubkind "implicit"]
      else
        [RecordSourceLocation anchor_name range.PhysicalRange.getBegin
           PropertyID.kLocationStartOffset,
         RecordSourceLocation anchor_name range.PhysicalRange.getEnd
           PropertyID.kLocationEndOffset]
    let wraithFacts :=
      if range.Kind = RangeKind.Wraith then
        [Output.edge anchor_name EdgeKindID.kChildOfContext
           (VNameRefFromNodeId range.Context)]
      else []
    (s', Output.nodeKind anchor_name NodeKindID.kAnchor :: locFacts ++ wraithFacts)
  else (s, [])

/-- `KytheGraphObserver::MetaHookDefines`: emit the redirect edges of the
rules exactly matching the anchor's byte range on a defines/defines-binding
edge; unknown outbound edge-kind spellings are reported and skipped. -/
def MetaHookDefines (env : Env) (meta_file : MetadataFile) (range_begin range_end : Nat)
    (def_vname : VName) : List Output :=
  (meta_file.rules.filter fun rule =>
      decide (rule.rbegin = range_begin) && decide (rule.rend = range_end) &&
      (decide (rule.edge_in = "/kythe/edge/defines") ||
       decide (rule.edge_in = "/kythe/edge/defines/binding"))).flatMap fun rule =>
    match env.ofSpelling rule.edge_out with
    | some edge_kind =>
        if rule.reverse_edge then [Output.edge rule.vname edge_kind def_vname]
        else [Output.edge def_vname edge_kind rule.vname]
    | none => [Output.diag ("Unknown edge kind " ++ rule.edge_out ++ " from metadata")]

/-- The metadata-overlay part of `RecordAnchor`: for a physical
defines-binding anchor, apply every metadata file registered for the
anchor's FileID at the expansion-resolved byte range. -/
def metaForAnchor (env : Env) (s : ObserverState) (source_range : Range)
    (def_vname : VName) : List Output :=
  match source_range.PhysicalRange.getBegin.getFileIDOpt with
  | some def_file =>
      let b0 := source_range.PhysicalRange.getBegin
      let e0 := source_range.PhysicalRange.getEnd
      let b := if b0.isMacroID then b0.getExpansionLoc else b0
      let e := if e0.isMacroID then e0.getExpansionLoc else e0
      (s.meta.filter fun me => decide (me.1 = def_file)).flatMap fun me =>
        MetaHookDefines env me.2 b.getFileOffset e.getFileOffset def_vname
  | none => []

/-- The edge (plus metadata hook) emissions of the unclaimable branch of
`RecordAnchor`. -/
def RecordAnchorEdgeOut (env : Env) (s : ObserverState) (anchor_name : VName)
    (source_range : Range) (primary_anchored_to : NodeId)
    (anchor_edge_kind : EdgeKindID) : List Output :=
  Output.edge anchor_name anchor_edge_kind (VNameRefFromNodeId primary_anchored_to) ::
  (if source_range.Kind = RangeKind.Physical &&
      anchor_edge_kind = EdgeKindID.kDefinesBinding then
     metaForAnchor env s source_range (VNameRefFromNodeId primary_anchored_to)
   else [])

/-- `KytheGraphObserver::RecordAnchor` (NodeId target): requires a
non-empty file stack (`CHECK`), optionally drops redundant wraith edges,
then emits the anchor's facts when the range or the target node is
claimed, and the anchoring edge when that holds or the edge was
unclaimable to begin with. -/
def RecordAnchorN (env : Env) (s : ObserverState) (source_range : Range)
    (primary_anchored_to : NodeId) (anchor_edge_kind : EdgeKindID)
    (cl : Claimability) : Option (ObserverState × List Output) :=
  if s.file_stack.isEmpty then none
  else
    let re : RangeEdge := { PhysicalRange := source_range.PhysicalRange
                            EdgeKind := anchor_edge_kind
                            EdgeTarget := primary_anchored_to }
    if s.drop_redundant_wraiths && decide (re ∈ s.range_edges) then some (s, [])
    else
      let s0 := if s.drop_redundant_wraiths then
          { s with range_edges := re :: s.range_edges }
        else s
      match VNameFromRange env source_range with
      | none => none
      | some anchor_name =>
          match claimRange s0 source_range with
          | none => none
          | some cr =>
              if cr || claimNode primary_anchored_to then
                let p := RecordRange s0 anchor_name source_range
                some (p.1, p.2 ++ RecordAnchorEdgeOut env s0 anchor_name source_range
                  primary_anchored_to anchor_edge_kind)
              else if cl = Claimability.Unclaimable then
                some (s0, RecordAnchorEdgeOut env s0 anchor_name source_range
                  primary_anchored_to anchor_edge_kind)
              else some (s0, [])

/-- `GraphObserver::Specificity`. -/
inductive Specificity where
  | UniquelyCompletes
  | Completes
deriving DecidableEq, Repr

/-- `KytheGraphObserver::recordCompletionRange`: an unclaimable
completion anchor. -/
def recordCompletionRange (env : Env) (s : ObserverState) (source_range : Range)
    (node : NodeId) (spec : Specificity) : Option (ObserverState × List Output) :=
  RecordAnchorN env s source_range node
    (if spec = Specificity.UniquelyCompletes then EdgeKindID.kUniquelyCompletes
     else EdgeKindID.kCompletes)
    Claimability.Unclaimable

/-- `KytheGraphObserver::recordDefinitionBindingRange`: a claimable
defines/binding anchor. -/
def recordDefinitionBindingRange (env : Env) (s : ObserverState)
    (binding_range : Range) (node : NodeId) : Option (ObserverState × List Output) :=
  RecordAnchorN env s binding_range node EdgeKindID.kDefinesBinding
    Claimability.Claimable

/-- `KytheGraphObserver::recordChildOfEdge`: a single childof edge fact
(stateless; edges are never deduplicated). -/
def recordChildOfEdge (child_id parent_id : NodeId) : List Output :=
  [Output.edge (VNameRefFromNodeId child_id) EdgeKindID.kChildOf
     (VNameRefFromNodeId parent_id)]

/-- `n` successive `recordChildOfEdge` calls, concatenating their
emissions. -/
def childOfEdgeN (child_id parent_id : NodeId) : Nat → List Output
  | 0 => []
  | n + 1 => childOfEdgeN child_id parent_id n ++ recordChildOfEdge child_id parent_id

/-- `AddMarkedSource` on a `MaybeFew<MarkedSource>`. -/
def AddMarkedSource (vname : VName) (marked_source : Option MarkedSource) : List Output :=
  match marked_source with
  | some m => [Output.marked vname m]
  | none => []

/-- `KytheGraphObserver::recordNamespaceNode`: emits the package facts
only the first time this claimed string is seen. -/
def recordNamespaceNode (s : ObserverState) (node : NodeId)
    (marked_source : Option MarkedSource) : ObserverState × List Output :=
  let node_vname := VNameRefFromNodeId node
  let key := node.ToClaimedString
  if decide (key ∈ s.written_namespaces) then (s, [])
  else
    ({ s with written_namespaces := key :: s.written_namespaces },
     Output.nodeKind node_vname NodeKindID.kPackage ::
     Output.prop node_vname PropertyID.kSubkind "namespace" ::
     AddMarkedSource node_vname marked_source)

/-- `KytheGraphObserver::nodeIdForNominalTypeNode`: appending `#t` to a
name produces the nominal type node's signature. -/
def nodeIdForNominalTypeNode (name_str : String) : NodeId :=
  { token := typeToken, identity := name_str ++ "#t" }

/-- `KytheGraphObserver::recordNominalTypeNode`: emits the nominal-type
facts unless deferred-node mode already wrote this type's claimed
string.  (`NameId::ToString()` lives in `GraphObserver.h`, not under
`src/`; the name is taken here as its rendered string.) -/
def recordNominalTypeNode (s : ObserverState) (name_str : String)
    (marked_source : Option MarkedSource) (parent : Option NodeId) :
    NodeId × ObserverState × List Output :=
  let id_out := nodeIdForNominalTypeNode name_str
  let key := id_out.ToClaimedString
  if !s.deferring_nodes then
    (id_out, s,
     AddMarkedSource (VNameRefFromNodeId id_out) marked_source ++
     Output.nodeKind (VNameRefFromNodeId id_out) NodeKindID.kTNominal ::
     (match parent with
      | some p => [Output.edge (VNameRefFromNodeId id_out) EdgeKindID.kChildOf
                     (VNameRefFromNodeId p)]
      | none => []))
  else if decide (key ∈ s.written_types) then (id_out, s, [])
  else
    (id_out, { s with written_types := key :: s.written_types },
     AddMarkedSource (VNameRefFromNodeId id_out) marked_source ++
     Output.nodeKind (VNameRefFromNodeId id_out) NodeKindID.kTNominal ::
     (match parent with
      | some p => [Output.edge (VNameRefFromNodeId id_out) EdgeKindID.kChildOf
                     (VNameRefFromNodeId p)]
      | none => []))

/-- The comma-joined claimed strings built by the emission loops of
`recordTappNode`/`recordTsigmaNode`. -/
def joinComma : List String → String
  | [] => ""
  | [x] => x
  | x :: xs => x ++ "," ++ joinComma xs

/-- The type-application identity built by `recordTappNode`: the
constructor's claimed string, then `(`, the comma-joined claimed strings
of the parameters, and `)`. -/
def tappIdentity (tycon_id : NodeId) (params : List NodeId) : String :=
  tycon_id.ToClaimedString ++ "(" ++ joinComma (params.map NodeId.ToClaimedString) ++ ")"

/-- `KytheGraphObserver::recordTappNode`: checks
`FirstDefaultParam <= params.size()` (`CHECK`, modelled as `none`), builds
the type-application NodeId from `tappIdentity`, and emits its facts (node
kind, optional default-param property, ordinal param edges with the
constructor at ordinal 0) unless deferred-node mode already wrote it. -/
def recordTappNode (s : ObserverState) (tycon_id : NodeId) (params : List NodeId)
    (FirstDefaultParam : Nat) : Option (NodeId × ObserverState × List Output) :=
  if !(FirstDefaultParam ≤ params.length) then none
  else
    let id_out : NodeId := { token := typeToken, identity := tappIdentity tycon_id params }
    let key := id_out.ToClaimedString
    let tapp_vname := VNameRefFromNodeId id_out
    let facts :=
      Output.nodeKind tapp_vname NodeKindID.kTApp ::
      (if FirstDefaultParam < params.length then
         [Output.propNat tapp_vname PropertyID.kParamDefault FirstDefaultParam]
       else []) ++
      Output.edgeOrd tapp_vname EdgeKindID.kParam (VNameRefFromNodeId tycon_id) 0 ::
      (params.enum.map fun pi =>
        Output.edgeOrd tapp_vname EdgeKindID.kParam (VNameRefFromNodeId pi.2) (pi.1 + 1))
    if !s.deferring_nodes then some (id_out, s, facts)
    else if decide (key ∈ s.written_types) then some (id_out, s, [])
    else some (id_out, { s with written_types := key :: s.written_types }, facts)

/-- The documentation signature of `recordDocumentationText`: the doc text
followed by `,`-prefixed claimed strings of the linked nodes. -/
def docSignature (doc_text : String) (doc_links : List NodeId) : String :=
  doc_links.foldl (fun acc link => acc ++ "," ++ link.ToClaimedString) doc_text

/-- The documentation NodeId of `recordDocumentationText`: the documented
node's token with the force-hashed signature. -/
def docNodeId (node : NodeId) (doc_text : String) (doc_links : List NodeId) : NodeId :=
  { token := node.token, identity := CompressString (docSignature doc_text doc_links) true }

/-- `KytheGraphObserver::recordDocumentationText`: emits the doc node's
facts (kind, text, ordinal param edges to the links) only the first time
its claimed string is seen, but emits the documents edge on every call. -/
def recordDocumentationText (s : ObserverState) (node : NodeId) (doc_text : String)
    (doc_links : List NodeId) : ObserverState × List Output :=
  let doc_id := docNodeId node doc_text doc_links
  let doc_vname := VNameRefFromNodeId doc_id
  let docEdge := Output.edge doc_vname EdgeKindID.kDocuments (VNameRefFromNodeId node)
  let key := doc_id.ToClaimedString
  if decide (key ∈ s.written_docs) then (s, [docEdge])
  else
    ({ s with written_docs := key :: s.written_docs },
     Output.nodeKind doc_vname NodeKindID.kDoc ::
     Output.prop doc_vname PropertyID.kText doc_text ::
     (doc_links.enum.map fun li =>
       Output.edgeOrd doc_vname EdgeKindID.kParam (VNameRefFromNodeId li.2) li.1) ++
     [docEdge])

/-- `KytheGraphObserver::EmitBuiltin`'s emissions: the builtin node kind
and its marked source. -/
def emitBuiltinFacts (builtin : Builtin) : List Output :=
  [Output.nodeKind (VNameRefFromNodeId builtin.node_id) NodeKindID.kBuiltin,
   Output.marked (VNameRefFromNodeId builtin.node_id) builtin.marked_source]

/-- Mark the builtin stored under `spelling` as emitted
(`EmitBuiltin` sets `builtin->emitted = true` on the registry entry). -/
def markBuiltinEmitted (builtins : List (String × Builtin)) (spelling : String) :
    List (String × Builtin) :=
  builtins.map fun p =>
    if p.1 = spelling then (p.1, { p.2 with emitted := true }) else p

/-- `KytheGraphObserver::getNodeIdForBuiltinType`: a registered spelling's
NodeId (lazily emitting its facts once); an unregistered spelling is fatal
in strict mode (`LOG(FATAL)`, modelled as `none`), otherwise logged, then
synthesized as `spelling#builtin` under the default token, memoized as
already-emitted, and emitted. -/
def getNodeIdForBuiltinType (env : Env) (s : ObserverState) (spelling : String) :
    Option (NodeId × ObserverState × List Output) :=
  match lookupS s.builtins spelling with
  | none =>
      if env.fail_on_unimplemented_builtin then none
      else
        let sig := MarkedSource.node MSKind.IDENTIFIER spelling "" "" 0 []
        let builtin : Builtin :=
          { node_id := { token := defaultToken, identity := spelling ++ "#builtin" }
            marked_source := sig
            emitted := true }
        some (builtin.node_id,
              { s with builtins := (spelling, builtin) :: s.builtins },
              Output.diag ("Missing builtin " ++ spelling) :: emitBuiltinFacts builtin)
  | some info =>
      if !info.emitted then
        some (info.node_id,
              { s with builtins := markBuiltinEmitted s.builtins spelling },
              emitBuiltinFacts info)
      else some (info.node_id, s, [])

/-- The three-level context-table chain of `pushFile`:
path (file uid) → context → inclusion offset → destination context. -/
def chainLookup (table : List (Nat × List (String × List (Nat × String))))
    (previous_uid : Nat) (previous_context : String) (offset : Nat) : Option String :=
  match lookupA table previous_uid with
  | none => none
  | some path_info =>
      match lookupS path_info previous_context with
      | none => none
      | some context_info => lookupA context_info offset

/-- The context-resolution step of `pushFile`: on a hit the destination
context; on a miss at any of the three levels the context is left at the
default value-initialized empty string and a warning diagnostic is
produced. -/
def resolveContext (env : Env) (table : List (Nat × List (String × List (Nat × String))))
    (previous_uid : Nat) (previous_context : String) (offset : Nat) :
    String × List Output :=
  let who := env.debugUidString previous_uid ++ "[" ++ previous_context ++ "]:"
    ++ toString offset
  match lookupA table previous_uid with
  | none => ("", [Output.diag ("Warning: when looking for " ++ who
      ++ ": missing source path")])
  | some path_info =>
      match lookupS path_info previous_context with
      | none => ("", [Output.diag ("Warning: when looking for " ++ who
          ++ ": missing source context")])
      | some context_info =>
          match lookupA context_info offset with
          | none => ("", [Output.diag ("Warning: when looking for " ++ who
              ++ ": missing source offset")])
          | some dest_context => (dest_context, [])

/-- The file-entry branch of `pushFile` (the location resolved to an
actual file): claim the context-amended VName, emit the file content once
per unique file entry, record the claim token, and push the populated
`FileState`. -/
def pushFileEntry (env : Env) (s : ObserverState) (blame_location : SrcLoc)
    (source_location : SrcLoc) (fid : Nat) (entry : FileEntry) :
    ObserverState × List Output :=
  let previous_context := match s.file_stack with
    | [] => s.starting_context
    | st :: _ => st.context
  let has_previous_uid := !s.file_stack.isEmpty
  let previous_uid := match s.file_stack with
    | st :: _ => st.uid
    | [] => 0
  let in_header := has_previous_uid &&
    decide (previous_uid ∈ s.transitively_reached_through_header)
  let base_vname := VNameFromFileEntry env entry
  let reached :=
    if in_header || (has_previous_uid && !(entry.name.endsWith ".inc")) then
      entry.uid :: s.transitively_reached_through_header
    else s.transitively_reached_through_header
  let ctxWarn :=
    if s.file_stack.isEmpty then (s.starting_context, ([] : List Output))
    else if has_previous_uid && previous_context ≠ "" && blame_location.isValid &&
        blame_location.isFileID then
      resolveContext env s.path_to_context_data previous_uid previous_context
        blame_location.getFileOffset
    else ("", [])
  let context := ctxWarn.1
  let vname := { base_vname with signature := context ++ base_vname.signature }
  let claimContent :=
    if env.claim vname then
      if decide (entry.uid ∈ s.recorded_files) then (true, ([] : List Output), s.recorded_files)
      else (true,
            (match env.fileBuffer entry with
             | some buf => [Output.fileContent base_vname buf]
             | none => []),
            entry.uid :: s.recorded_files)
    else (false, [], s.recorded_files)
  let claimed := claimContent.1
  let fs : FileState := { context := context, vname := vname, base_vname := base_vname
                          uid := entry.uid, claimed := claimed }
  let token : KytheClaimToken :=
    { tokenId := 2, vname := vname, rough_claimed := claimed
      language_independent := false }
  let ccf := emplaceA s.claim_checked_files fid token
  let cfst := if claimed then
      emplaceA s.claimed_file_specific_tokens fid { token with language_independent := true }
    else s.claimed_file_specific_tokens
  let mainLoc := if !has_previous_uid then source_location else s.main_source_file_loc
  let mainTok := if !has_previous_uid then lookupA ccf fid else s.main_source_file_token
  ({ s with file_stack := fs :: s.file_stack
            transitively_reached_through_header := reached
            recorded_files := claimContent.2.2
            claim_checked_files := ccf
            claimed_file_specific_tokens := cfst
            main_source_file_loc := mainLoc
            main_source_file_token := mainTok },
   ctxWarn.2 ++ claimContent.2.1)

/-- `KytheGraphObserver::pushFile`: always pushes exactly one
`FileState` (default-claimed); a valid location is expansion-resolved
(`CHECK(isFileID)` modelled as `none`), and when it resolves to an actual
file entry the entry branch runs. -/
def pushFile (env : Env) (s : ObserverState) (blame_location source_location : SrcLoc) :
    Option (ObserverState × List Output) :=
  let state0 : FileState := { claimed := true }
  if !source_location.isValid then
    some ({ s with file_stack := state0 :: s.file_stack }, [])
  else
    let source1 := if source_location.isMacroID then source_location.getExpansionLoc
                   else source_location
    match source1 with
    | .fileLoc none _ =>
        some ({ s with file_stack := state0 :: s.file_stack }, [])
    | .fileLoc (some fid) off =>
        match env.fileEntryFor fid with
        | none => some ({ s with file_stack := state0 :: s.file_stack }, [])
        | some entry =>
            some (pushFileEntry env s blame_location (.fileLoc (some fid) off) fid entry)
    | _ => none

/-- `KytheGraphObserver::popFile`: requires a non-empty stack (`CHECK`),
pops one `FileState`, and clears the per-compilation-unit anchor-dedup set
exactly when the stack empties. -/
def popFile (s : ObserverState) : Option ObserverState :=
  match s.file_stack with
  | [] => none
  | _ :: rest =>
      some { s with file_stack := rest
                    deferred_anchors := if rest.isEmpty then [] else s.deferred_anchors }

/-- `pushFile`, keeping only the state. -/
def pushFileS (env : Env) (s : ObserverState) (blame_source : SrcLoc × SrcLoc) :
    Option ObserverState :=
  (pushFile env s blame_source.1 blame_source.2).map Prod.fst

/-- A sequence of `pushFile` calls. -/
def pushList (env : Env) (s : ObserverState) : List (SrcLoc × SrcLoc) → Option ObserverState
  | [] => some s
  | a :: rest => (pushFileS env s a).bind fun s' => pushList env s' rest

/-- A sequence of `popFile` calls. -/
def popList (s : ObserverState) : Nat → Option ObserverState
  | 0 => some s
  | n + 1 => (popFile s).bind fun s' => popList s' n

/-- The freshly constructed observer state used by the concrete
instantiations below. -/
def obsInit : ObserverState := {}

/-- The default environment used by the concrete instantiations below. -/
def envDefault : Env := {}

/-- A type NodeId used as a type-application constructor. -/
def fW : NodeId := { token := typeToken, identity := "f" }

/-- A type NodeId with a comma-free identity. -/
def aW : NodeId := { token := typeToken, identity := "x" }

/-- A second type NodeId with a comma-free identity. -/
def bW : NodeId := { token := typeToken, identity := "y" }

/-- A type NodeId whose identity contains the `,` separator. -/
def aCol : NodeId := { token := typeToken, identity := "x,x" }

/-- A type NodeId colliding with `aCol` under comma-joining. -/
def bCol : NodeId := { token := typeToken, identity := "x" }

/-- A context NodeId for ranges. -/
def ndCtx : NodeId := { token := typeToken, identity := "ctx" }

/-- A second context NodeId for ranges. -/
def ndCtx2 : NodeId := { token := typeToken, identity := "ctx2" }

/-- A claim token cached as not-claimed (an unclaimed file). -/
def tokUnclaimed : KytheClaimToken := { tokenId := 2, rough_claimed := false }

/-- A node whose claim token is cached as not-claimed. -/
def tUnclaimed : NodeId := { token := { tokenId := 5, rough_claimed := false }
                             identity := "target" }

/-- An observer state inside one pushed file, where FileID 0 was
claim-checked and found unclaimed. -/
def sClaimFalse : ObserverState :=
  { file_stack := [{ claimed := true }]
    claim_checked_files := [(0, tokUnclaimed)] }

/-- A physical range inside the unclaimed FileID 0. -/
def rAnchor : Range :=
  { Kind := RangeKind.Physical
    PhysicalRange := { getBegin := .fileLoc (some 0) 5, getEnd := .fileLoc (some 0) 9 }
    Context := ndCtx }

/-- A physical range used for the determinism instantiation. -/
def rPhys1 : Range :=
  { Kind := RangeKind.Physical
    PhysicalRange := { getBegin := .fileLoc (some 0) 3, getEnd := .fileLoc (some 0) 7 }
    Context := ndCtx }

/-- The same physical bounds as `rPhys1` under a different context. -/
def rPhys2 : Range :=
  { Kind := RangeKind.Physical
    PhysicalRange := { getBegin := .fileLoc (some 0) 3, getEnd := .fileLoc (some 0) 7 }
    Context := ndCtx2 }

/-- An implicit range (bounds are irrelevant to its identity). -/
def rImp1 : Range :=
  { Kind := RangeKind.Implicit
    PhysicalRange := { getBegin := .fileLoc (some 0) 5, getEnd := .fileLoc (some 0) 9 }
    Context := ndCtx }

/-- An implicit range with the same context but different bounds. -/
def rImp2 : Range :=
  { Kind := RangeKind.Implicit
    PhysicalRange := { getBegin := .fileLoc (some 3) 100, getEnd := .invalid }
    Context := ndCtx }

/-- The environment for the context-table instantiation: FileID 5 is the
included header. -/
def envPush : Env :=
  { fileEntryFor := fun n => if n = 5 then some { uid := 7, name := "hdr.h" } else none }

/-- An observer state inside one pushed parent file whose context is the
non-empty `"A"`, with an empty context table. -/
def sPush : ObserverState :=
  { file_stack := [{ context := "A", uid := 1, claimed := true }] }

/-- A namespace NodeId. -/
def nsW : NodeId := { token := typeToken, identity := "nsp" }

/-- A documented NodeId. -/
def docNodeW : NodeId := { token := typeToken, identity := "fn" }

/-- A child NodeId for edge recording. -/
def cW : NodeId := { token := typeToken, identity := "child" }

/-- A parent NodeId for edge recording. -/
def pW : NodeId := { token := typeToken, identity := "parent" }

/-- Two pushes of an invalid location (each pushes one default
FileState). -/
def argsW : List (SrcLoc × SrcLoc) := [(.invalid, .invalid), (.invalid, .invalid)]

/-- The state after the two pushes of `argsW`. -/
def sPushed2 : ObserverState :=
  { file_stack := [{ claimed := true }, { claimed := true }] }

/-- A state at stack depth 1 with a pending deferred anchor. -/
def tDepth1 : ObserverState :=
  { file_stack := [{ claimed := true }], deferred_anchors := [rAnchor] }

/-- `tDepth1` after its final pop: empty stack, cleared anchor-dedup
set. -/
def tPopped : ObserverState :=
  { file_stack := [], deferred_anchors := [] }

/-- A strict-mode environment (`--fail_on_unimplemented_builtin`). -/
def envStrict : Env := { fail_on_unimplemented_builtin := true }

/-- Splitting at an unambiguous separator: if the separator occurs in
neither prefix, the decomposition of a separated concatenation is
unique. -/
theorem append_comma_cancel {a a' b b' : List Char}
    (ha : ',' ∉ a) (ha' : ',' ∉ a') (h : a ++ ',' :: b = a' ++ ',' :: b') :
    a = a' ∧ b = b' := by
  induction a generalizing a' with
  | nil =>
      cases a' with
      | nil => simpa using h
      | cons y ys =>
          simp only [List.nil_append, List.cons_append, List.cons.injEq] at h
          exact absurd (h.1 ▸ List.mem_cons_self _ _) ha'
  | cons x xs ih =>
      cases a' with
      | nil =>
          simp only [List.nil_append, List.cons_append, List.cons.injEq] at h
          exact absurd (h.1 ▸ List.mem_cons_self _ _) ha
      | cons y ys =>
          simp only [List.cons_append, List.cons.injEq] at h
          obtain ⟨rfl, h2⟩ := h
          have hxs : ',' ∉ xs := fun hm => ha (List.mem_cons_of_mem _ hm)
          have hys : ',' ∉ ys := fun hm => ha' (List.mem_cons_of_mem _ hm)
          obtain ⟨rfl, rfl⟩ := ih hxs hys h2
          exact ⟨rfl, rfl⟩

/-- The NodeId returned by `recordTappNode` is always the one built from
`tappIdentity` (whatever the dedup state). -/
theorem recordTappNode_id (s : ObserverState) (tycon_id : NodeId) (params : List NodeId)
    (FirstDefaultParam : Nat) (h : FirstDefaultParam ≤ params.length) :
    (recordTappNode s tycon_id params FirstDefaultParam).map (fun r => r.1) =
      some { token := typeToken, identity := tappIdentity tycon_id params } := by
  unfold recordTappNode
  rw [if_neg (by simpa using h)]
  dsimp only
  split_ifs <;> rfl

/-- C6: the type-application identity is the constructor's claimed string,
`(`, the comma-joined claimed strings of the parameters in order, and `)`;
for parameters whose claimed strings differ and are free of the `,`
separator, applying the constructor to `[a, b]` and to `[b, a]` yields
distinct NodeIds (order sensitivity).  (The separator-freedom hypothesis
is forced: claimed strings containing `,` can make the two compositions
collide, see the counterexample.) -/
theorem tapp_identity_order_sensitive (s1 s2 : ObserverState) (tycon_id a b : NodeId)
    (ha : ',' ∉ a.ToClaimedString.data) (hb : ',' ∉ b.ToClaimedString.data)
    (hne : a.ToClaimedString ≠ b.ToClaimedString) :
    tappIdentity tycon_id [a, b] =
      tycon_id.ToClaimedString ++ "(" ++ a.ToClaimedString ++ ","
        ++ b.ToClaimedString ++ ")" ∧
    (recordTappNode s1 tycon_id [a, b] 2).map (fun r => r.1) ≠
      (recordTappNode s2 tycon_id [b, a] 2).map (fun r => r.1) := by
  constructor
  · simp [tappIdentity, joinComma, String.append_assoc]
  · rw [recordTappNode_id s1 tycon_id [a, b] 2 (by simp),
        recordTappNode_id s2 tycon_id [b, a] 2 (by simp)]
    intro hcontra
    simp only [Option.some.injEq, NodeId.mk.injEq, true_and] at hcontra
    have hdata := congrArg String.data hcontra
    simp only [tappIdentity, joinComma, String.data_append,
      show ("(" : String).data = ['('] from rfl,
      show ("," : String).data = [','] from rfl,
      show (")" : String).data = [')'] from rfl,
      List.append_assoc, List.cons_append, List.nil_append] at hdata
    have h2 := List.append_cancel_left hdata
    simp only [List.cons.injEq, true_and] at h2
    obtain ⟨hab, -⟩ := append_comma_cancel ha hb h2
    exact hne (String.ext hab)

/-- Concrete instantiation of `tapp_identity_order_sensitive` at
comma-free parameter identities `x` and `y`. -/
theorem tapp_identity_order_sensitive_inst :
    tappIdentity fW [aW, bW] =
      fW.ToClaimedString ++ "(" ++ aW.ToClaimedString ++ ","
        ++ bW.ToClaimedString ++ ")" ∧
    (recordTappNode obsInit fW [aW, bW] 2).map (fun r => r.1) ≠
      (recordTappNode obsInit fW [bW, aW] 2).map (fun r => r.1) :=
  tapp_identity_order_sensitive obsInit obsInit fW aW bW (by decide) (by decide)
    (by decide)

/-- C6 counterexample: with parameter claimed strings `x,x` and `x`
(identities can contain the `,` separator), `TApp(f,[a,b])` and
`TApp(f,[b,a])` are the *same* NodeId even though the parameters'
identities differ — the claim's distinctness consequence fails as
stated. -/
theorem tapp_identity_collision_cex :
    (recordTappNode obsInit fW [aCol, bCol] 2).map (fun r => r.1) =
      (recordTappNode obsInit fW [bCol, aCol] 2).map (fun r => r.1) ∧
    aCol.ToClaimedString ≠ bCol.ToClaimedString := by
  exact ⟨by decide, by decide⟩

/-- The NodeId returned by `recordNominalTypeNode` is always the one
built by `nodeIdForNominalTypeNode`. -/
theorem recordNominalTypeNode_id (s : ObserverState) (name_str : String)
    (ms : Option MarkedSource) (parent : Option NodeId) :
    (recordNominalTypeNode s name_str ms parent).1 = nodeIdForNominalTypeNode name_str := by
  unfold recordNominalTypeNode
  dsimp only
  split_ifs <;> rfl

/-- C7: the nominal-type NodeId's identity is the name's string plus
`#t`, and any two recording calls naming the same type — a forward
declaration and a definition, whatever their marked source, parent, or
observer state — return the identical NodeId. -/
theorem nominal_type_identity_stable (name_str : String) (s1 s2 : ObserverState)
    (ms1 ms2 : Option MarkedSource) (p1 p2 : Option NodeId) :
    (nodeIdForNominalTypeNode name_str).identity = name_str ++ "#t" ∧
    (recordNominalTypeNode s1 name_str ms1 p1).1 =
      (recordNominalTypeNode s2 name_str ms2 p2).1 := by
  refine ⟨rfl, ?_⟩
  rw [recordNominalTypeNode_id, recordNominalTypeNode_id]

/-- C4: range identity is a pure function of (kind, physical bounds,
context): two ranges agreeing on all three resolve to the same VName and
the same range string (the posted-FileID buffer is rebuilt from scratch on
every derivation, and no observer state enters the computation); moreover
for Physical ranges the context plays no part at all, as the spec's
"context if Wraith" demands. -/
theorem range_signature_deterministic (env : Env) (r1 r2 r3 r4 : Range)
    (hk : r1.Kind = r2.Kind) (hb : r1.PhysicalRange = r2.PhysicalRange)
    (hc : r1.Context = r2.Context)
    (hk3 : r3.Kind = RangeKind.Physical) (hk4 : r4.Kind = RangeKind.Physical)
    (hb34 : r3.PhysicalRange = r4.PhysicalRange) :
    (VNameFromRange env r1 = VNameFromRange env r2 ∧
     AppendRangeToStream env r1 = AppendRangeToStream env r2) ∧
    (VNameFromRange env r3 = VNameFromRange env r4 ∧
     AppendRangeToStream env r3 = AppendRangeToStream env r4) := by
  obtain ⟨k1, p1, c1⟩ := r1
  obtain ⟨k2, p2, c2⟩ := r2
  obtain ⟨k3, p3, c3⟩ := r3
  obtain ⟨k4, p4, c4⟩ := r4
  simp only at hk hb hc hk3 hk4 hb34
  subst hk hb hc hk3 hk4 hb34
  refine ⟨⟨rfl, rfl⟩, ?_, ?_⟩
  · simp [VNameFromRange]
  · simp [AppendRangeToStream]

/-- Concrete instantiation of `range_signature_deterministic`: a physical
range resolves identically to itself, and the same physical bounds under
two different contexts resolve identically. -/
theorem range_signature_deterministic_inst :
    (VNameFromRange envDefault rPhys1 = VNameFromRange envDefault rPhys1 ∧
     AppendRangeToStream envDefault rPhys1 = AppendRangeToStream envDefault rPhys1) ∧
    (VNameFromRange envDefault rPhys1 = VNameFromRange envDefault rPhys2 ∧
     AppendRangeToStream envDefault rPhys1 = AppendRangeToStream envDefault rPhys2) :=
  range_signature_deterministic envDefault rPhys1 rPhys1 rPhys1 rPhys2
    rfl rfl rfl rfl rfl rfl

/-- C8: for an Implicit range `VNameFromRange` never consults the
location resolver: the result is the context node's VName with the fixed
`@syntactic` suffix, and two implicit ranges with the same context — even
with entirely different physical bounds — resolve to the same VName. -/
theorem implicit_range_ignores_resolver (env : Env) (r1 r2 : Range)
    (h1 : r1.Kind = RangeKind.Implicit) (h2 : r2.Kind = RangeKind.Implicit)
    (hc : r1.Context = r2.Context) :
    VNameFromRange env r1 = VNameFromRange env r2 ∧
    VNameFromRange env r1 = some { VNameRefFromNodeId r1.Context with
      signature :=
        CompressString ((VNameRefFromNodeId r1.Context).signature ++ "@syntactic") false
      language := kIndexerLang } := by
  obtain ⟨k1, p1, c1⟩ := r1
  obtain ⟨k2, p2, c2⟩ := r2
  simp only at h1 h2 hc
  subst h1 h2 hc
  exact ⟨rfl, rfl⟩

/-- Concrete instantiation of `implicit_range_ignores_resolver` at two
implicit ranges with the same context and different bounds. -/
theorem implicit_range_ignores_resolver_inst :
    VNameFromRange envDefault rImp1 = VNameFromRange envDefault rImp2 ∧
    VNameFromRange envDefault rImp1 = some { VNameRefFromNodeId rImp1.Context with
      signature :=
        CompressString ((VNameRefFromNodeId rImp1.Context).signature ++ "@syntactic") false
      language := kIndexerLang } :=
  implicit_range_ignores_resolver envDefault rImp1 rImp2 rfl rfl rfl

/-- C10: `claimLocation` claims every invalid location and every location
in an invalid FileID, and rejects a location in a valid file that was
never claim-checked (never pushed). -/
theorem claimLocation_edge_cases (s : ObserverState) (fid o1 o2 : Nat)
    (h : lookupA s.claim_checked_files fid = none) :
    claimLocation s SrcLoc.invalid = some true ∧
    claimLocation s (.fileLoc none o1) = some true ∧
    claimLocation s (.fileLoc (some fid) o2) = some false := by
  refine ⟨rfl, rfl, ?_⟩
  simp [claimLocation, h]

/-- Concrete instantiation of `claimLocation_edge_cases` on the fresh
observer state (no file claim-checked). -/
theorem claimLocation_edge_cases_inst :
    claimLocation obsInit SrcLoc.invalid = some true ∧
    claimLocation obsInit (.fileLoc none 0) = some true ∧
    claimLocation obsInit (.fileLoc (some 3) 1) = some false :=
  claimLocation_edge_cases obsInit 3 0 1 rfl

/-- C9: an unregistered builtin spelling is fatal in strict mode; in
lenient mode the anomaly is logged, a one-off builtin with identity
`spelling#builtin` is synthesized, its node-defining facts are emitted
exactly once, and a later call with the same spelling returns the same
NodeId from the memo with the same state and no further emission. -/
theorem builtin_unknown_spelling (env1 env2 : Env) (s : ObserverState) (spelling : String)
    (habs : lookupS s.builtins spelling = none)
    (h1 : env1.fail_on_unimplemented_builtin = true)
    (h2 : env2.fail_on_unimplemented_builtin = false) :
    getNodeIdForBuiltinType env1 s spelling = none ∧
    ((getNodeIdForBuiltinType env2 s spelling).map fun r =>
        (r.1.identity, hasDiag r.2.2, nodeKindCount r.2.2 NodeKindID.kBuiltin)) =
      some (spelling ++ "#builtin", true, 1) ∧
    ((getNodeIdForBuiltinType env2 s spelling).bind fun r =>
        getNodeIdForBuiltinType env2 r.2.1 spelling) =
      ((getNodeIdForBuiltinType env2 s spelling).map fun r =>
        (r.1, r.2.1, ([] : List Output))) := by
  refine ⟨?_, ?_, ?_⟩
  · simp [getNodeIdForBuiltinType, habs, h1]
  · simp [getNodeIdForBuiltinType, habs, h2, hasDiag, nodeKindCount, emitBuiltinFacts,
      List.countP, List.countP.go]
  · have hstep : ∀ (b : Builtin) (l : List (String × Builtin)),
        lookupS ((spelling, b) :: l) spelling = some b := by
      intro b l; simp [lookupS, List.find?]
    simp [getNodeIdForBuiltinType, habs, h2, hstep]

/-- Concrete instantiation of `builtin_unknown_spelling` at the spelling
`float128`, absent from the empty registry. -/
theorem builtin_unknown_spelling_inst :
    getNodeIdForBuiltinType envStrict obsInit "float128" = none ∧
    ((getNodeIdForBuiltinType envDefault obsInit "float128").map fun r =>
        (r.1.identity, hasDiag r.2.2, nodeKindCount r.2.2 NodeKindID.kBuiltin)) =
      some ("float128" ++ "#builtin", true, 1) ∧
    ((getNodeIdForBuiltinType envDefault obsInit "float128").bind fun r =>
        getNodeIdForBuiltinType envDefault r.2.1 "float128") =
      ((getNodeIdForBuiltinType envDefault obsInit "float128").map fun r =>
        (r.1, r.2.1, ([] : List Output))) :=
  builtin_unknown_spelling envStrict envDefault obsInit "float128" rfl rfl rfl

/-- C1 (amended): for an anchor-recording operation invoked with
`Claimability::Claimable` (and no redundant-wraith dropping), nothing at
all reaches the recorder sink exactly when the range is unclaimed and the
target node is unclaimed, and the anchoring edge is emitted exactly when
either claim holds. -/
theorem recordAnchor_claimable_gating (env : Env) (s s' : ObserverState) (r : Range)
    (t : NodeId) (k : EdgeKindID) (out : List Output)
    (hdrop : s.drop_redundant_wraiths = false)
    (h : RecordAnchorN env s r t k Claimability.Claimable = some (s', out)) :
    (out = [] ↔ (claimRange s r = some false ∧ claimNode t = false)) ∧
    (containsEdgeTo out k t = true ↔
      ¬(claimRange s r = some false ∧ claimNode t = false)) := by
  unfold RecordAnchorN at h
  rw [hdrop] at h
  simp only [Bool.false_and, Bool.false_eq_true, if_false] at h
  split at h
  · exact absurd h (by simp)
  · split at h
    · exact absurd h (by simp)
    · rename_i anchor_name hv
      split at h
      · exact absurd h (by simp)
      · rename_i cr hcr
        split at h
        · rename_i hclaims
          rw [Option.some_inj] at h
          injection h with h1 h2
          subst h1
          subst h2
          constructor
          · constructor
            · intro hout
              exact absurd hout (by simp [RecordAnchorEdgeOut])
            · rintro ⟨hcf, hnf⟩
              rw [hcr] at hcf
              simp only [Option.some_inj] at hcf
              subst hcf
              simp [hnf] at hclaims
          · constructor
            · intro _
              rintro ⟨hcf, hnf⟩
              rw [hcr] at hcf
              simp only [Option.some_inj] at hcf
              subst hcf
              simp [hnf] at hclaims
            · intro _
              simp [containsEdgeTo, RecordAnchorEdgeOut, List.any_append]
        · rename_i hclaims
          simp only [Bool.or_eq_true, not_or, Bool.not_eq_true] at hclaims
          simp only [show (Claimability.Claimable = Claimability.Unclaimable) = False by
            simp, if_false] at h
          rw [Option.some_inj] at h
          injection h with h1 h2
          subst h1
          subst h2
          have hfalse : claimRange s r = some false ∧ claimNode t = false := by
            refine ⟨?_, hclaims.2⟩
            rw [hcr, hclaims.1]
          constructor
          · simp [hfalse]
          · simp [containsEdgeTo, hfalse]

/-- Concrete instantiation of `recordAnchor_claimable_gating`: inside an
unclaimed file, with an unclaimed target node, a claimable ref anchor
emits nothing. -/
theorem recordAnchor_claimable_gating_inst :
    (([] : List Output) = [] ↔
      (claimRange sClaimFalse rAnchor = some false ∧ claimNode tUnclaimed = false)) ∧
    (containsEdgeTo ([] : List Output) EdgeKindID.kRef tUnclaimed = true ↔
      ¬(claimRange sClaimFalse rAnchor = some false ∧ claimNode tUnclaimed = false)) :=
  recordAnchor_claimable_gating envDefault sClaimFalse sClaimFalse rAnchor tUnclaimed
    EdgeKindID.kRef [] rfl rfl

/-- C1 counterexample: `recordCompletionRange` is an anchor-recording
operation, its range's file is unclaimed and its target node is
unclaimed, yet the anchoring completes edge is still passed to the
recorder sink (the operation is hard-wired `Unclaimable`, which bypasses
the claim gate for the edge). -/
theorem unclaimable_anchor_emits_cex :
    claimRange sClaimFalse rAnchor = some false ∧
    claimNode tUnclaimed = false ∧
    recordCompletionRange envDefault sClaimFalse rAnchor tUnclaimed Specificity.Completes
      = some (sClaimFalse,
          [Output.edge { signature := "@5:9", language := kIndexerLang }
             EdgeKindID.kCompletes (VNameRefFromNodeId tUnclaimed)]) :=
  ⟨rfl, rfl, rfl⟩

/-- `hasDiag` distributes over concatenation. -/
theorem hasDiag_append (xs ys : List Output) :
    hasDiag (xs ++ ys) = (hasDiag xs || hasDiag ys) := by
  simp [hasDiag, List.any_append]

/-- A miss at any of the three context-table levels leaves the resolved
context at the default empty string and produces a warning diagnostic. -/
theorem resolveContext_miss (env : Env)
    (tb : List (Nat × List (String × List (Nat × String)))) (u : Nat) (c : String)
    (o : Nat) (h : chainLookup tb u c o = none) :
    (resolveContext env tb u c o).1 = "" ∧ hasDiag (resolveContext env tb u c o).2 = true := by
  unfold chainLookup at h
  unfold resolveContext
  cases h1 : lookupA tb u with
  | none => simp [hasDiag]
  | some m1 =>
      simp only [h1] at h
      cases h2 : lookupS m1 c with
      | none => simp [h2, hasDiag]
      | some m2 =>
          simp only [h2] at h
          cases h3 : lookupA m2 o with
          | none => simp [h2, h3, hasDiag]
          | some d => simp [h3] at h

/-- C2 (amended): when an included file's push hits a context-table miss
at any of the three levels (path, context, or offset) under a non-empty
parent context, the new FileState's context is left at the
value-initialized empty string — not the parent's context — a warning
diagnostic is emitted, and the push completes non-fatally. -/
theorem pushFile_context_miss (env : Env) (s : ObserverState) (st0 : FileState)
    (rest : List FileState) (bf : Option Nat) (boff f soff : Nat) (entry : FileEntry)
    (hstack : s.file_stack = st0 :: rest)
    (hctx : st0.context ≠ "")
    (henv : env.fileEntryFor f = some entry)
    (hmiss : chainLookup s.path_to_context_data st0.uid st0.context boff = none) :
    ((pushFile env s (.fileLoc bf boff) (.fileLoc (some f) soff)).map fun r =>
      (r.1.file_stack.head?.map FileState.context, hasDiag r.2)) = some (some "", true) := by
  have hpf : pushFile env s (.fileLoc bf boff) (.fileLoc (some f) soff)
      = some (pushFileEntry env s (.fileLoc bf boff) (.fileLoc (some f) soff) f entry) := by
    unfold pushFile
    simp [SrcLoc.isValid, SrcLoc.isMacroID, henv]
  rw [hpf]
  obtain ⟨hc1, hc2⟩ :=
    resolveContext_miss env s.path_to_context_data st0.uid st0.context boff hmiss
  unfold pushFileEntry
  simp [hstack, hctx, hc1, hc2, hasDiag_append, SrcLoc.isValid, SrcLoc.isFileID,
    SrcLoc.getFileOffset]

/-- Concrete instantiation of `pushFile_context_miss`: pushing header
FileID 5 from a parent with context `"A"` and an empty context table. -/
theorem pushFile_context_miss_inst :
    ((pushFile envPush sPush (.fileLoc (some 9) 4) (.fileLoc (some 5) 0)).map fun r =>
      (r.1.file_stack.head?.map FileState.context, hasDiag r.2)) = some (some "", true) :=
  pushFile_context_miss envPush sPush { context := "A", uid := 1, claimed := true } []
    (some 9) 4 5 0 { uid := 7, name := "hdr.h" } rfl (by decide) rfl rfl

/-- C2 counterexample: on a three-level table miss with non-empty parent
context `"A"`, the pushed FileState's context is the empty string, not
the parent's `"A"` — the claim that it "stays equal to the parent file's
context" fails (the FileState is value-initialized and the miss branches
never assign its context). -/
theorem pushFile_context_miss_keeps_empty_cex :
    sPush.file_stack.head?.map FileState.context = some "A" ∧
    ((pushFile envPush sPush (.fileLoc (some 9) 4) (.fileLoc (some 5) 0)).map fun r =>
      r.1.file_stack.head?.map FileState.context) = some (some "") ∧
    (some "A" : Option String) ≠ some "" :=
  ⟨rfl, rfl, by decide⟩

/-- `pushFile` pushes exactly one FileState and never touches the
anchor-dedup set or the node dedup sets. -/
theorem pushFile_preserve (env : Env) (s s' : ObserverState) (b l : SrcLoc)
    (out : List Output) (h : pushFile env s b l = some (s', out)) :
    s'.file_stack.length = s.file_stack.length + 1 ∧
    s'.deferred_anchors = s.deferred_anchors ∧
    s'.written_namespaces = s.written_namespaces ∧
    s'.written_types = s.written_types ∧
    s'.written_docs = s.written_docs := by
  have hentry : ∀ (srcl : SrcLoc) (f : Nat) (entry : FileEntry),
      (pushFileEntry env s b srcl f entry).1.file_stack.length
        = s.file_stack.length + 1 ∧
      (pushFileEntry env s b srcl f entry).1.deferred_anchors = s.deferred_anchors ∧
      (pushFileEntry env s b srcl f entry).1.written_namespaces
        = s.written_namespaces ∧
      (pushFileEntry env s b srcl f entry).1.written_types = s.written_types ∧
      (pushFileEntry env s b srcl f entry).1.written_docs = s.written_docs := by
    intro srcl f entry
    simp [pushFileEntry]
  have hplain : ∀ (st0 : FileState) (outs : List Output),
      some ({ s with file_stack := st0 :: s.file_stack }, outs) = some (s', out) →
      s'.file_stack.length = s.file_stack.length + 1 ∧
      s'.deferred_anchors = s.deferred_anchors ∧
      s'.written_namespaces = s.written_namespaces ∧
      s'.written_types = s.written_types ∧
      s'.written_docs = s.written_docs := by
    intro st0 outs heq
    rw [Option.some_inj] at heq
    injection heq with h1 h2
    subst h1
    simp
  rcases l with _ | ⟨fid, off⟩ | ⟨e, sp⟩
  · rw [pushFile] at h
    simp only [SrcLoc.isValid, Bool.not_false] at h
    rw [if_pos trivial] at h
    exact hplain _ _ h
  · rw [pushFile] at h
    simp only [SrcLoc.isValid, SrcLoc.isMacroID, Bool.not_true, Bool.false_eq_true,
      if_false] at h
    rcases fid with _ | f
    · exact hplain _ _ h
    · dsimp only at h
      cases henv : env.fileEntryFor f with
      | none => rw [henv] at h; exact hplain _ _ h
      | some entry =>
          rw [henv, Option.some_inj] at h
          have h1 := congrArg Prod.fst h
          dsimp only at h1
          subst h1
          exact hentry _ _ _
  · rw [pushFile] at h
    simp only [SrcLoc.isValid, SrcLoc.isMacroID, SrcLoc.getExpansionLoc,
      Bool.not_true, Bool.false_eq_true, if_false, if_true] at h
    rcases e with _ | ⟨fid, off⟩ | ⟨e2, sp2⟩
    · cases h
    · rcases fid with _ | f
      · exact hplain _ _ h
      · dsimp only at h
        cases henv : env.fileEntryFor f with
        | none => rw [henv] at h; exact hplain _ _ h
        | some entry =>
            rw [henv, Option.some_inj] at h
            have h1 := congrArg Prod.fst h
            dsimp only at h1
            subst h1
            exact hentry _ _ _
    · cases h

/-- `pushList` grows the stack by the number of pushes and preserves the
dedup sets. -/
theorem pushList_preserve (env : Env) (args : List (SrcLoc × SrcLoc)) :
    ∀ s s' : ObserverState, pushList env s args = some s' →
    s'.file_stack.length = s.file_stack.length + args.length ∧
    s'.deferred_anchors = s.deferred_anchors ∧
    s'.written_namespaces = s.written_namespaces ∧
    s'.written_types = s.written_types ∧
    s'.written_docs = s.written_docs := by
  induction args with
  | nil =>
      intro s s' h
      rw [pushList, Option.some_inj] at h
      subst h
      simp
  | cons a rest ih =>
      intro s s' h
      rw [pushList] at h
      cases hps : pushFileS env s a with
      | none => rw [hps] at h; cases h
      | some s1 =>
          rw [hps, Option.some_bind] at h
          obtain ⟨hl, hdef, hn, ht, hd⟩ := ih s1 s' h
          obtain ⟨pair, hp, hfst⟩ := Option.map_eq_some'.mp hps
          obtain ⟨hl0, hdef0, hn0, ht0, hd0⟩ :=
            pushFile_preserve env s pair.1 a.1 a.2 pair.2 (by rw [hp])
          subst hfst
          refine ⟨?_, ?_, ?_, ?_, ?_⟩
          · rw [hl, hl0, List.length_cons]; omega
          · rw [hdef, hdef0]
          · rw [hn, hn0]
          · rw [ht, ht0]
          · rw [hd, hd0]

/-- Popping as many times as the stack is deep empties the stack, clears
the anchor-dedup set on the outermost pop, and leaves everything else
unchanged. -/
theorem popList_drain (fsk : List FileState) :
    ∀ s : ObserverState, s.file_stack = fsk →
    popList s fsk.length = some { s with
      file_stack := []
      deferred_anchors := (if fsk.isEmpty then s.deferred_anchors else []) } := by
  induction fsk with
  | nil =>
      intro s hs
      rw [List.length_nil, popList]
      rw [Option.some_inj]
      cases s
      simp_all
  | cons f rest ih =>
      intro s hs
      have hpop : popFile s = some { s with
          file_stack := rest
          deferred_anchors := (if rest.isEmpty then [] else s.deferred_anchors) } := by
        unfold popFile
        rw [hs]
      rw [List.length_cons, popList, hpop, Option.some_bind, ih _ rfl]
      rw [Option.some_inj]
      cases hre : rest.isEmpty <;> simp_all

/-- C5: starting from an empty file-state stack (with the per-unit
anchor-dedup set empty, as it is whenever no file is active), any N
`pushFile` calls followed by N `popFile` calls leave the stack empty and
the anchor-dedup set empty while the node-dedup sets survive untouched;
and a single `popFile` clears the anchor-dedup set exactly when the stack
depth returns to 0. -/
theorem push_pop_balanced (env : Env) (args : List (SrcLoc × SrcLoc))
    (s s' t t' : ObserverState)
    (h0 : s.file_stack = []) (hd0 : s.deferred_anchors = [])
    (hp : pushList env s args = some s')
    (hpop : popFile t = some t') :
    ((popList s' args.length).map fun u =>
       (u.file_stack, u.deferred_anchors, u.written_namespaces, u.written_types,
        u.written_docs))
      = some ([], [], s.written_namespaces, s.written_types, s.written_docs) ∧
    t'.deferred_anchors = (if t.file_stack.length = 1 then [] else t.deferred_anchors) := by
  obtain ⟨hlen, hdef, hn, ht, hd⟩ := pushList_preserve env args s s' hp
  have hlen' : args.length = s'.file_stack.length := by rw [hlen, h0]; simp
  rw [hlen', popList_drain s'.file_stack s' rfl]
  constructor
  · simp only [Option.map_some']
    rw [hdef, hd0, hn, ht, hd]
    simp
  · unfold popFile at hpop
    cases hts : t.file_stack with
    | nil => rw [hts] at hpop; cases hpop
    | cons f rest =>
        rw [hts, Option.some_inj] at hpop
        subst hpop
        cases rest <;> simp [hts]

/-- Concrete instantiation of `push_pop_balanced`: two pushes of invalid
locations from the fresh state, then two pops; and one pop from depth 1
with a pending deferred anchor. -/
theorem push_pop_balanced_inst :
    ((popList sPushed2 argsW.length).map fun u =>
       (u.file_stack, u.deferred_anchors, u.written_namespaces, u.written_types,
        u.written_docs))
      = some ([], [], obsInit.written_namespaces, obsInit.written_types,
          obsInit.written_docs) ∧
    tPopped.deferred_anchors =
      (if tDepth1.file_stack.length = 1 then [] else tDepth1.deferred_anchors) :=
  push_pop_balanced envDefault argsW obsInit sPushed2 tDepth1 tPopped rfl rfl rfl rfl

/-- `n` childof-edge recordings emit exactly `n` edge facts. -/
theorem childOfEdgeN_length (c p : NodeId) (n : Nat) :
    (childOfEdgeN c p n).length = n := by
  induction n with
  | zero => rfl
  | succ m ih => simp [childOfEdgeN, recordChildOfEdge, ih]

/-- C3: under active deferred-nodes mode, calling the same node-defining
operation twice (namespace, nominal type, type application,
documentation) emits the node-defining fact exactly once in total, while
the documents edge is emitted on both documentation calls and N plain
edge-recording calls emit N edge facts (edges are never deduplicated). -/
theorem dedup_nodes_once_edges_not (s : ObserverState) (hdef : s.deferring_nodes = true)
    (nsNode : NodeId) (nsMS : Option MarkedSource)
    (nomName : String) (nomMS : Option MarkedSource) (nomParent : Option NodeId)
    (tycon : NodeId) (params : List NodeId)
    (docNode : NodeId) (docText : String) (docLinks : List NodeId)
    (c p : NodeId) (n : Nat)
    (hns : nsNode.ToClaimedString ∉ s.written_namespaces)
    (hnom : (nodeIdForNominalTypeNode nomName).ToClaimedString ∉ s.written_types)
    (htapp : (NodeId.mk typeToken (tappIdentity tycon params)).ToClaimedString
      ∉ s.written_types)
    (hdoc : (docNodeId docNode docText docLinks).ToClaimedString ∉ s.written_docs) :
    nodeKindCount ((recordNamespaceNode s nsNode nsMS).2 ++
        (recordNamespaceNode (recordNamespaceNode s nsNode nsMS).1 nsNode nsMS).2)
      NodeKindID.kPackage = 1 ∧
    nodeKindCount ((recordNominalTypeNode s nomName nomMS nomParent).2.2 ++
        (recordNominalTypeNode (recordNominalTypeNode s nomName nomMS nomParent).2.1
          nomName nomMS nomParent).2.2) NodeKindID.kTNominal = 1 ∧
    ((recordTappNode s tycon params params.length).bind fun r1 =>
        (recordTappNode r1.2.1 tycon params params.length).map fun r2 =>
          nodeKindCount (r1.2.2 ++ r2.2.2) NodeKindID.kTApp) = some 1 ∧
    nodeKindCount ((recordDocumentationText s docNode docText docLinks).2 ++
        (recordDocumentationText (recordDocumentationText s docNode docText docLinks).1
          docNode docText docLinks).2) NodeKindID.kDoc = 1 ∧
    edgeKindCount ((recordDocumentationText s docNode docText docLinks).2 ++
        (recordDocumentationText (recordDocumentationText s docNode docText docLinks).1
          docNode docText docLinks).2) EdgeKindID.kDocuments = 2 ∧
    (childOfEdgeN c p n).length = n := by
  refine ⟨?_, ?_, ?_, ?_, ?_, childOfEdgeN_length c p n⟩
  · cases nsMS <;>
      simp [recordNamespaceNode, hns, nodeKindCount, AddMarkedSource,
        List.countP_cons, List.countP_append]
  · cases nomMS <;> cases nomParent <;>
      simp [recordNominalTypeNode, hdef, hnom, nodeKindCount, AddMarkedSource,
        List.countP_cons, List.countP_append]
  · simp [recordTappNode, hdef, htapp, nodeKindCount, List.countP_cons,
      List.countP_append, List.countP_map, Function.comp, List.countP_false]
  · simp [recordDocumentationText, hdoc, nodeKindCount, List.countP_cons,
      List.countP_append, List.countP_map, Function.comp, List.countP_false]
  · simp [recordDocumentationText, hdoc, edgeKindCount, List.countP_cons,
      List.countP_append, List.countP_map, Function.comp, List.countP_false]

/-- Concrete instantiation of `dedup_nodes_once_edges_not` on the fresh
observer state. -/
theorem dedup_nodes_once_edges_not_inst :
    nodeKindCount ((recordNamespaceNode obsInit nsW none).2 ++
        (recordNamespaceNode (recordNamespaceNode obsInit nsW none).1 nsW none).2)
      NodeKindID.kPackage = 1 ∧
    nodeKindCount ((recordNominalTypeNode obsInit "Cls#c" none none).2.2 ++
        (recordNominalTypeNode (recordNominalTypeNode obsInit "Cls#c" none none).2.1
          "Cls#c" none none).2.2) NodeKindID.kTNominal = 1 ∧
    ((recordTappNode obsInit fW [aW] [aW].length).bind fun r1 =>
        (recordTappNode r1.2.1 fW [aW] [aW].length).map fun r2 =>
          nodeKindCount (r1.2.2 ++ r2.2.2) NodeKindID.kTApp) = some 1 ∧
    nodeKindCount ((recordDocumentationText obsInit docNodeW "doc" [aW]).2 ++
        (recordDocumentationText (recordDocumentationText obsInit docNodeW "doc" [aW]).1
          docNodeW "doc" [aW]).2) NodeKindID.kDoc = 1 ∧
    edgeKindCount ((recordDocumentationText obsInit docNodeW "doc" [aW]).2 ++
        (recordDocumentationText (recordDocumentationText obsInit docNodeW "doc" [aW]).1
          docNodeW "doc" [aW]).2) EdgeKindID.kDocuments = 2 ∧
    (childOfEdgeN cW pW 3).length = 3 :=
  dedup_nodes_once_edges_not obsInit rfl nsW none "Cls#c" none none fW [aW]
    docNodeW "doc" [aW] cW pW 3 (by decide) (by decide) (by decide) (by decide)
